import Mathlib

set_option maxRecDepth 10000

/-!
Verification of the file-selection and concatenation pipeline of
`consolidate_files.py` (consolidate utility): pattern loading
(`load_gitignore_patterns`), binary detection (`is_binary_file`),
ignore test (`should_ignore`), selection (`consolidate_files`'s two
traversal branches) and concatenation (`append_file_content`).

The Python code is shallowly embedded: a file is a record of the
observations the code can make of it (its basename, the media type
`mimetypes.guess_type` reports for it, the outcome of opening it in
binary mode, and the outcome of opening and fully reading it as UTF-8
text); a directory tree is an inductive tree; the output stream is a
`String` threaded through the writing functions.
-/

namespace Consolidate

/-- Python `str.lower` restricted to the character-wise case mapping
(the embedding's inputs are ASCII, where Lean's `Char.toLower` and
Python's `str.lower` agree). -/
def pyLower (s : String) : String := String.mk (s.data.map Char.toLower)

/-- Python `str.startswith`. -/
def pyStartsWith (s pre : String) : Bool := pre.data.isPrefixOf s.data

/-- Python `str.endswith`. -/
def pyEndsWith (s suf : String) : Bool := suf.data.isSuffixOf s.data

/-- Helper for `splitOnChar`: the accumulator holds the current piece
reversed. -/
def splitOnCharAux (sep : Char) : List Char → List Char → List String
  | [], acc => [String.mk acc.reverse]
  | c :: cs, acc =>
    if c = sep then String.mk acc.reverse :: splitOnCharAux sep cs []
    else splitOnCharAux sep cs (c :: acc)

/-- Python `str.split` on a single separator character: the empty
string yields `[""]`, a trailing separator yields a trailing empty
piece. -/
def splitOnChar (sep : Char) (s : String) : List String :=
  splitOnCharAux sep s.data []

/-- Python `s[n:]`. -/
def pyDrop (s : String) (n : Nat) : String := String.mk (s.data.drop n)

/-- Python `str.splitlines` for newline-separated text: splits on the
line separator and does not produce a trailing empty line for text
ending in a newline; the empty string yields no lines. -/
def splitlines (s : String) : List String :=
  let parts := splitOnChar '\n' s
  if parts.getLast? = some "" then parts.dropLast else parts

/-- Python's substring operator `needle in hay`. -/
def pyIn (needle hay : String) : Bool :=
  (List.range (hay.data.length + 1)).any
    (fun i => needle.data.isPrefixOf (hay.data.drop i))

/-- Outcome of `open(path, 'r', encoding='utf-8')` followed by
`.read()`, as observed by `append_file_content`:
`ok c` — the file opened and decoded to the text `c`;
`decodeError` — the open succeeded but `.read()` raised
`UnicodeDecodeError`;
`readFail` — the open succeeded but `.read()` raised some other
exception (for instance an I/O error mid-read);
`openFail` — the `open` call itself raised. -/
inductive TextRead where
  | ok (content : String)
  | decodeError
  | readFail
  | openFail
deriving DecidableEq

/-- A file as the pipeline observes it.
`name` is the basename; `isRegular` is `os.path.isfile`;
`mime` is the `mimetypes.guess_type` result for its name
(`none` = unknown type); `readBytes` is the byte content seen by
`open(path, 'rb')` (`none` = that open/read raises); `readText` is the
outcome of reading the file as UTF-8 text. -/
structure FSFile where
  name : String
  isRegular : Bool
  mime : Option String
  readBytes : Option (List Nat)
  readText : TextRead
deriving DecidableEq

/-- Embedding of `is_binary_file` (consolidate_files.py lines 87-113):
if the guessed media type is unknown, read up to 1024 bytes and report
binary iff a null byte is present, reporting binary when the file
cannot be read; if the type is known, report text iff it starts with
"text/". -/
def is_binary_file (f : FSFile) : Bool :=
  match f.mime with
  | none =>
    match f.readBytes with
    | some bytes =>
      if (bytes.take 1024).contains 0 then true else false
    | none => true
  | some mime_type =>
    if pyStartsWith mime_type "text/" then false else true

/-- Fuel-indexed glob matching; every recursive call shrinks the sum
of the two lengths, so any fuel above that sum makes the fuel bound
unreachable. -/
def globMatchAux : Nat → List Char → List Char → Bool
  | 0, _, _ => false
  | _ + 1, [], [] => true
  | _ + 1, [], _ :: _ => false
  | n + 1, '*' :: ps, [] => globMatchAux n ps []
  | n + 1, '*' :: ps, c :: cs =>
    globMatchAux n ps (c :: cs) ||
      (decide (c ≠ '/') && globMatchAux n ('*' :: ps) cs)
  | n + 1, '?' :: ps, c :: cs => decide (c ≠ '/') && globMatchAux n ps cs
  | n + 1, p :: ps, c :: cs => decide (p = c) && globMatchAux n ps cs
  | _ + 1, _ :: _, [] => false

/-- Glob matching for a single gitignore-style pattern against text:
`*` matches any (possibly empty) run of characters other than the path
separator, `?` matches one character other than the separator, every
other character matches itself. -/
def globMatch (ps cs : List Char) : Bool :=
  globMatchAux (ps.length + cs.length + 1) ps cs

/-- One compiled ignore rule: the glob text and whether the source line
was negated with a leading `!`. -/
structure GitPattern where
  negated : Bool
  glob : String
deriving DecidableEq

/-- Modelled from the spec: parsing of one ignore-file line by the
external `pathspec` gitwildmatch syntax (the `pathspec` library is not
part of this repository). A blank line or a `#` comment line compiles
to no rule; a leading `!` marks the rule negated. -/
def parsePatternLine (line : String) : Option GitPattern :=
  if line = "" then none
  else if pyStartsWith line "#" then none
  else if pyStartsWith line "!" then some ⟨true, pyDrop line 1⟩
  else some ⟨false, line⟩

/-- The slash-separated segments of a relative path. -/
def pathSegs (relPath : String) : List String := splitOnChar '/' relPath

/-- Joins path pieces with a separator text between consecutive
pieces. -/
def joinSep (sep : String) : List String → String
  | [] => ""
  | [s] => s
  | s :: rest => s ++ sep ++ joinSep sep rest

/-- The ancestor paths of a relative path, each rendered with
slash separators: for `a/b/c` these are `a`, `a/b` and `a/b/c`. -/
def ancestorPaths (relPath : String) : List String :=
  (List.range (pathSegs relPath).length).map
    (fun i => joinSep "/" ((pathSegs relPath).take (i + 1)))

/-- Modelled from the spec: whether one gitwildmatch rule's glob hits a
relative path — "a pattern matches if it matches the path or any
ancestor directory segment". A leading `/` (root anchor) and a
trailing `/` (directory-only marker) are stripped; a glob containing a
separator is matched against the path and each of its ancestor paths
from the root, a separator-free glob against every path segment. -/
def patternHits (glob : String) (relPath : String) : Bool :=
  let g1 := if pyStartsWith glob "/" then pyDrop glob 1 else glob
  let core := if pyEndsWith g1 "/" then String.mk g1.data.dropLast else g1
  if core.data.contains '/' then
    (ancestorPaths relPath).any (fun a => globMatch core.data a.data)
  else
    (pathSegs relPath).any (fun seg => globMatch core.data seg.data)

/-- Modelled from the spec: `pathspec.PathSpec.match_file` over the
compiled rules — later rules override earlier ones when both hit the
same path ("ties broken by last-matching-pattern-wins"), a negated
rule re-includes, and a path hit by no rule is not matched. -/
def matchFile (pats : List GitPattern) (relPath : String) : Bool :=
  pats.foldl
    (fun acc p => if patternHits p.glob relPath then !p.negated else acc)
    false

/-- The combined pattern-line list built by `load_gitignore_patterns`
(lines 64-77): the lines of every discovered ignore-file's text in
order, then the extra literal patterns. -/
def patternLines (sources : List String) (extra : List String) : List String :=
  sources.flatMap splitlines ++ extra

/-- Embedding of `load_gitignore_patterns` (lines 52-84), taking the
already-read texts of the discovered ignore-files as `sources`: when
the combined line list is empty it returns `none` (the Python
function returns `None`); otherwise the lines are compiled
(`pathspec.PathSpec.from_lines('gitwildmatch', ...)`, modelled by
`parsePatternLine`). -/
def load_gitignore_patterns (sources : List String) (extra : List String) :
    Option (List GitPattern) :=
  let all_patterns := patternLines sources extra
  if all_patterns.isEmpty then none
  else some (all_patterns.filterMap parsePatternLine)

/-- Embedding of `should_ignore` (lines 116-133): `None` means no spec
was compiled and nothing is ignored; otherwise the compiled spec is
matched against the path relative to the input directory. -/
def should_ignore (spec : Option (List GitPattern)) (rel_path : String) : Bool :=
  match spec with
  | none => false
  | some s => matchFile s rel_path

/-- Embedding of the extension test (lines 183-185 and 198-200):
`extensions and not any(filename.lower().endswith(ext) for ext in
extensions)` rejects, so a file passes iff the list is empty (Python
`None` or `[]`, both falsy) or the lowercased filename ends with one
of the — not lowercased — entries. -/
def extPass (extensions : List String) (filename : String) : Bool :=
  extensions.isEmpty ||
    extensions.any (fun ext => pyEndsWith (pyLower filename) ext)

/-- A directory tree: the files directly in the directory (in
`os.listdir` / `os.walk` enumeration order) and the named
subdirectories (in enumeration order). -/
inductive FSTree where
  | node (files : List FSFile) (subdirs : List (String × FSTree))

/-- The files directly in the tree's root directory. -/
def rootFiles : FSTree → List FSFile
  | .node files _ => files

mutual

/-- Embedding of the file enumeration done by `os.walk(input_dir)`
under the hidden-directory pruning of line 175
(`dirs[:] = [d for d in dirs if not d.startswith('.')]`): top-down,
the current directory's files first (paths as component lists under
the accumulated relative prefix `pre`), then the non-hidden
subdirectories in order. -/
def walkFiles (pre : List String) : FSTree → List (List String × FSFile)
  | .node files subdirs =>
    files.map (fun f => (pre ++ [f.name], f)) ++ walkSub pre subdirs

/-- The subdirectory half of `walkFiles`: hidden directories (name
beginning with `.`) are discarded before descending. -/
def walkSub (pre : List String) : List (String × FSTree) → List (List String × FSFile)
  | [] => []
  | (dname, sub) :: rest =>
    (if pyStartsWith dname "." then []
     else walkFiles (pre ++ [dname]) sub) ++ walkSub pre rest

end

/-- The slash-separated relative path of a component list, as
`os.path.relpath` produces it on a POSIX platform. -/
def relString (p : List String) : String := joinSep "/" p

/-- The per-file admission test of the recursive branch of
`consolidate_files` (lines 172-189), in the code's order: not ignored
by the spec, a regular file, passing the extension filter, not
binary. -/
def keepRec (spec : Option (List GitPattern)) (extensions : List String)
    (pf : List String × FSFile) : Bool :=
  !should_ignore spec (relString pf.1) && pf.2.isRegular &&
    extPass extensions pf.2.name && !is_binary_file pf.2

/-- The recursive branch of `consolidate_files` (lines 172-189):
enumerate by `os.walk` with hidden-directory pruning, keep the files
passing the admission tests. -/
def selectRec (t : FSTree) (spec : Option (List GitPattern))
    (extensions : List String) : List (List String × FSFile) :=
  (walkFiles [] t).filter (keepRec spec extensions)

/-- The per-file admission test of the non-recursive branch of
`consolidate_files` (lines 190-204), in the code's order: a regular
file, not ignored by the spec (the relative path of a direct child is
its basename), passing the extension filter, not binary. -/
def keepNonRec (spec : Option (List GitPattern)) (extensions : List String)
    (f : FSFile) : Bool :=
  f.isRegular && !should_ignore spec f.name &&
    extPass extensions f.name && !is_binary_file f

/-- The non-recursive branch of `consolidate_files` (lines 190-204):
enumerate `os.listdir(input_dir)` (entries that are not regular files,
such as subdirectories, fail the `os.path.isfile` test and contribute
nothing), keep the files passing the admission tests. -/
def selectNonRec (t : FSTree) (spec : Option (List GitPattern))
    (extensions : List String) : List (List String × FSFile) :=
  ((rootFiles t).filter (keepNonRec spec extensions)).map
    (fun f => ([f.name], f))

/-- The `files_to_process` list built by `consolidate_files`
(lines 170-204) before the writing loop. -/
def files_to_process (t : FSTree) (include_subdirs : Bool)
    (spec : Option (List GitPattern)) (extensions : List String) :
    List (List String × FSFile) :=
  if include_subdirs then selectRec t spec extensions
  else selectNonRec t spec extensions

/-- The header record written before a file's content (line 148). -/
def startMarker (rel_path : String) : String :=
  "\n\n# ----- Start of " ++ rel_path ++ " -----\n\n"

/-- The footer record written after a file's content (line 151). -/
def endMarker (rel_path : String) : String :=
  "\n\n# ----- End of " ++ rel_path ++ " -----\n"

/-- Embedding of `append_file_content` (lines 136-156), with the
output stream threaded as a `String`. The header is written before
`infile.read()` is attempted, so a `UnicodeDecodeError` (and likewise
any other exception raised by the read itself) leaves the header in
the output with no content and no footer, while a failure of the
`open` call itself leaves the output unchanged; in every failure case
the exception is swallowed and the function returns. -/
def append_file_content (f : FSFile) (outfile : String) (rel_path : String) :
    String :=
  match f.readText with
  | .ok content =>
    outfile ++ startMarker rel_path ++ content ++ endMarker rel_path
  | .decodeError => outfile ++ startMarker rel_path
  | .readFail => outfile ++ startMarker rel_path
  | .openFail => outfile

/-- The writing loop of `consolidate_files` (lines 208-210): fold
`append_file_content` over the selected files in order, starting from
the given prior stream content. -/
def writeAll (files : List (List String × FSFile)) (outfile : String) : String :=
  files.foldl (fun out pf => append_file_content pf.2 out (relString pf.1)) outfile

/-- The full pipeline of `consolidate_files` (lines 159-212): select,
then write every selected file into a freshly opened output stream;
the result is the final content of the output file. -/
def consolidate_files (t : FSTree) (include_subdirs : Bool)
    (spec : Option (List GitPattern)) (extensions : List String) : String :=
  writeAll (files_to_process t include_subdirs spec extensions) ""

/-- The only count `consolidate_files` surfaces: the length of
`files_to_process`, logged at line 206 before the writing loop runs
(the Python function itself returns `None`). -/
def consolidate_logged_count (t : FSTree) (include_subdirs : Bool)
    (spec : Option (List GitPattern)) (extensions : List String) : Nat :=
  (files_to_process t include_subdirs spec extensions).length

/-- Whether the text read of a file succeeds, i.e. whether
`append_file_content` writes a complete header-content-footer entry
for it. -/
def readOk (f : FSFile) : Bool :=
  match f.readText with
  | .ok _ => true
  | _ => false

/-- What one call of `append_file_content` appends to the stream. -/
def entryPiece (f : FSFile) (rel_path : String) : String :=
  match f.readText with
  | .ok content => startMarker rel_path ++ content ++ endMarker rel_path
  | .decodeError => startMarker rel_path
  | .readFail => startMarker rel_path
  | .openFail => ""

/-- The concatenation of the pieces `writeAll` appends for a file
list. -/
def entriesText : List (List String × FSFile) → String
  | [] => ""
  | pf :: rest => entryPiece pf.2 (relString pf.1) ++ entriesText rest

/-! Concrete filesystem fixtures used by witnesses and
counterexamples. -/

/-- The file `a.txt` of the spec's concrete scenario: content
"hello", guessed type `text/plain`. -/
def fileHello : FSFile :=
  ⟨"a.txt", true, some "text/plain", some [104, 101, 108, 108, 111], .ok "hello"⟩

/-- The file `b.png` of the spec's concrete scenario: PNG header
bytes (with null bytes), guessed type `image/png`. -/
def filePng : FSFile :=
  ⟨"b.png", true, some "image/png",
    some [137, 80, 78, 71, 13, 10, 26, 10, 0, 0, 0, 13], .decodeError⟩

/-- The file `.gitignore` of the spec's concrete scenario: content
"b.png"; its name has no registered extension so its guessed type is
unknown, and its bytes hold no null byte. -/
def fileGitignore : FSFile :=
  ⟨".gitignore", true, none, some [98, 46, 112, 110, 103], .ok "b.png"⟩

/-- A file whose single byte 195 (a stray UTF-8 lead byte) holds no
null byte — so it passes the binary heuristic — but does not decode as
UTF-8 text. -/
def fileBad : FSFile := ⟨"bad.txt", true, none, some [195], .decodeError⟩

/-- A file of unknown media type that cannot be opened at all. -/
def fileUnreadable : FSFile := ⟨"locked.dat", true, none, none, .openFail⟩

/-- A file of unknown media type whose bytes contain a null byte. -/
def fileNullByte : FSFile :=
  ⟨"mystery.bin", true, none, some [77, 0, 77], .decodeError⟩

/-- A hidden regular file (leading dot) with readable text content. -/
def fileDotEnv : FSFile :=
  ⟨".env", true, none, some [75, 69, 89, 61], .ok "KEY="⟩

/-- A plain text file living below a hidden directory in the C3
witness tree. -/
def fileSecret : FSFile :=
  ⟨"secret.txt", true, some "text/plain", some [115], .ok "s"⟩

/-- The root directory of the spec's concrete scenario: exactly
`a.txt`, `b.png` and `.gitignore`. -/
def scenarioTree : FSTree := .node [fileHello, filePng, fileGitignore] []

/-- The ruleset compiled from that scenario's `.gitignore` text. -/
def scenarioSpec : Option (List GitPattern) :=
  load_gitignore_patterns ["b.png"] []

/-- A root directory holding one readable file and one file that fails
to decode during concatenation. -/
def decodeTree : FSTree := .node [fileHello, fileBad] []

/-- A root directory with a hidden subdirectory containing a file. -/
def hiddenTree : FSTree :=
  .node [fileHello] [(".git", .node [fileSecret] [])]

/-- A root directory holding just a hidden regular file. -/
def dotfileTree : FSTree := .node [fileDotEnv] []

/-- A root directory holding just an unreadable file. -/
def lockedTree : FSTree := .node [fileUnreadable] []

/-! Helper lemmas. -/

/-- One `append_file_content` call appends exactly its entry piece. -/
theorem append_file_content_eq (f : FSFile) (outfile rel_path : String) :
    append_file_content f outfile rel_path = outfile ++ entryPiece f rel_path := by
  cases h : f.readText <;>
    simp [append_file_content, entryPiece, h, String.append_assoc]

/-- The entry text of a concatenated list splits at the join. -/
theorem entriesText_append (as bs : List (List String × FSFile)) :
    entriesText (as ++ bs) = entriesText as ++ entriesText bs := by
  induction as with
  | nil => simp [entriesText, String.empty_append]
  | cons pf rest ih => simp [entriesText, ih, String.append_assoc]

/-- The writing loop only appends: its result is the prior stream
content followed by the entry text of the list. -/
theorem writeAll_eq (fs : List (List String × FSFile)) :
    ∀ outfile : String, writeAll fs outfile = outfile ++ entriesText fs := by
  induction fs with
  | nil => intro outfile; simp [writeAll, entriesText, String.append_empty]
  | cons pf rest ih =>
    intro outfile
    have step : writeAll (pf :: rest) outfile =
        writeAll rest (append_file_content pf.2 outfile (relString pf.1)) := rfl
    rw [step, ih, append_file_content_eq, entriesText, String.append_assoc]

/-- A list's length is the sum of the lengths of a Boolean filter and
its complement. -/
theorem length_filter_split {α : Type} (l : List α) (q : α → Bool) :
    (l.filter q).length + (l.filter (fun x => !q x)).length = l.length := by
  induction l with
  | nil => rfl
  | cons a t ih =>
    by_cases h : q a = true <;> simp [List.filter, h, Nat.succ_add, ← ih]
    omega

mutual

/-- Every file enumerated by `walkFiles` lies under the prefix with a
nonempty component suffix whose directory components are all
non-hidden. -/
theorem walkFiles_shape (pre : List String) (t : FSTree) (p : List String)
    (f : FSFile) (h : (p, f) ∈ walkFiles pre t) :
    ∃ q, p = pre ++ q ∧ q ≠ [] ∧
      ∀ d ∈ q.dropLast, pyStartsWith d "." = false := by
  match t with
  | .node files subdirs =>
    rw [walkFiles] at h
    rcases List.mem_append.mp h with hmap | hsub
    · rcases List.mem_map.mp hmap with ⟨g, hg, heq⟩
      obtain ⟨rfl, rfl⟩ : pre ++ [g.name] = p ∧ g = f := by
        simpa [Prod.ext_iff] using heq
      exact ⟨[g.name], rfl, by simp, by simp⟩
    · exact walkSub_shape pre subdirs p f hsub

/-- Subdirectory half of `walkFiles_shape`: the head component of the
suffix is the non-hidden subdirectory name descended into. -/
theorem walkSub_shape (pre : List String) (ds : List (String × FSTree))
    (p : List String) (f : FSFile) (h : (p, f) ∈ walkSub pre ds) :
    ∃ q, p = pre ++ q ∧ q ≠ [] ∧
      ∀ d ∈ q.dropLast, pyStartsWith d "." = false := by
  match ds with
  | [] => simp [walkSub] at h
  | (dname, sub) :: rest =>
    rw [walkSub] at h
    rcases List.mem_append.mp h with hleft | hright
    · by_cases hd : pyStartsWith dname "." = true
      · simp [hd] at hleft
      · rw [if_neg hd] at hleft
        obtain ⟨q, hq, hne, hall⟩ := walkFiles_shape (pre ++ [dname]) sub p f hleft
        refine ⟨dname :: q, by simp [hq], by simp, ?_⟩
        rw [List.dropLast_cons_of_ne_nil hne]
        intro d hd2
        rcases List.mem_cons.mp hd2 with rfl | hmem
        · simpa using hd
        · exact hall d hmem
    · exact walkSub_shape pre rest p f hright

end

/-- Membership in the recursive selection is walk membership plus the
admission test. -/
theorem mem_selectRec (t : FSTree) (spec : Option (List GitPattern))
    (extensions : List String) (pf : List String × FSFile) :
    pf ∈ selectRec t spec extensions ↔
      pf ∈ walkFiles [] t ∧ keepRec spec extensions pf = true := by
  simp [selectRec, List.mem_filter]

/-- Membership in the non-recursive selection, characterized on the
root file list. -/
theorem mem_selectNonRec (t : FSTree) (spec : Option (List GitPattern))
    (extensions : List String) (f : FSFile) :
    ([f.name], f) ∈ selectNonRec t spec extensions ↔
      f ∈ rootFiles t ∧ keepNonRec spec extensions f = true := by
  constructor
  · intro h
    rcases List.mem_map.mp h with ⟨g, hg, heq⟩
    obtain ⟨-, rfl⟩ : [g.name] = [f.name] ∧ g = f := by
      simpa [Prod.ext_iff] using heq
    exact List.mem_filter.mp hg
  · intro ⟨h1, h2⟩
    exact List.mem_map.mpr ⟨f, List.mem_filter.mpr ⟨h1, h2⟩, rfl⟩

/-! Claim theorems. -/

/-- C4: when the combined pattern list (all pattern-source lines plus
extra literal names) is empty, `load_gitignore_patterns` returns the
distinguished "no restrictions" value `none`, and the ignore test is a
pass-through: `should_ignore` is false for every relative path. -/
theorem C4_empty_patterns_pass_through (sources extra : List String)
    (h : patternLines sources extra = []) :
    load_gitignore_patterns sources extra = none ∧
      ∀ p : String, should_ignore (load_gitignore_patterns sources extra) p = false := by
  have hnone : load_gitignore_patterns sources extra = none := by
    simp [load_gitignore_patterns, h]
  exact ⟨hnone, fun p => by rw [hnone]; rfl⟩

/-- Witness for C4: one discovered ignore-file whose text is empty
yields the empty combined pattern list, the `none` spec and a
pass-through ignore test. -/
theorem C4_empty_patterns_pass_through_witness :
    patternLines [""] [] = [] ∧
      load_gitignore_patterns [""] [] = none ∧
      should_ignore (load_gitignore_patterns [""] []) "src/main.py" = false :=
  ⟨rfl, (C4_empty_patterns_pass_through [""] [] rfl).1,
    (C4_empty_patterns_pass_through [""] [] rfl).2 "src/main.py"⟩

/-- C5: `is_binary_file` is true for a file of unknown media type
whose first 1024 bytes contain a null byte; false for a file whose
known media type is textual (the byte content is not consulted in that
branch); and false for a readable file of unknown media type with no
null byte in its first 1024 bytes. -/
theorem C5_binary_classification :
    (∀ (f : FSFile) (bs : List Nat), f.mime = none → f.readBytes = some bs →
        (bs.take 1024).contains 0 = true → is_binary_file f = true) ∧
    (∀ (f : FSFile) (m : String), f.mime = some m →
        pyStartsWith m "text/" = true → is_binary_file f = false) ∧
    (∀ (f : FSFile) (bs : List Nat), f.mime = none → f.readBytes = some bs →
        (bs.take 1024).contains 0 = false → is_binary_file f = false) := by
  refine ⟨?_, ?_, ?_⟩
  · intro f bs h1 h2 h3
    have h3' : 0 ∈ bs.take 1024 := by simpa using h3
    simp [is_binary_file, h1, h2, h3']
  · intro f m h1 h2
    simp [is_binary_file, h1, h2]
  · intro f bs h1 h2 h3
    have h3' : 0 ∉ bs.take 1024 := by simpa using h3
    simp [is_binary_file, h1, h2, h3']

/-- Witness for C5: a null-byte file of unknown type is binary, a
`text/plain` file is text, a clean unknown-type file is text. -/
theorem C5_binary_classification_witness :
    is_binary_file fileNullByte = true ∧ is_binary_file fileHello = false ∧
      is_binary_file fileGitignore = false :=
  ⟨C5_binary_classification.1 fileNullByte [77, 0, 77] rfl rfl (by decide),
    C5_binary_classification.2.1 fileHello "text/plain" rfl (by decide),
    C5_binary_classification.2.2 fileGitignore [98, 46, 112, 110, 103] rfl rfl
      (by decide)⟩

/-- C7: for the ruleset compiled from the lines `*.log` then
`!important.log`, the path `important.log` is not matched (the later
negated pattern wins) while `debug.log` is matched. -/
theorem C7_negation_order :
    should_ignore (load_gitignore_patterns ["*.log\n!important.log"] [])
        "important.log" = false ∧
      should_ignore (load_gitignore_patterns ["*.log\n!important.log"] [])
        "debug.log" = true :=
  ⟨by decide, by decide⟩

/-- C8: a file of unknown media type that cannot be opened for the
heuristic read is classified binary (fail-safe) rather than raising,
and consequently never appears in the selection of either traversal
branch. -/
theorem C8_unreadable_classified_binary (f : FSFile) (h1 : f.mime = none)
    (h2 : f.readBytes = none) :
    is_binary_file f = true ∧
      ∀ (t : FSTree) (incl : Bool) (spec : Option (List GitPattern))
        (exts : List String) (p : List String),
        (p, f) ∉ files_to_process t incl spec exts := by
  have hbin : is_binary_file f = true := by simp [is_binary_file, h1, h2]
  refine ⟨hbin, ?_⟩
  intro t incl spec exts p hmem
  cases incl with
  | true =>
    have hk := ((mem_selectRec t spec exts (p, f)).mp hmem).2
    simp [keepRec, hbin] at hk
  | false =>
    rcases List.mem_map.mp hmem with ⟨g, hg, heq⟩
    obtain ⟨-, rfl⟩ : [g.name] = p ∧ g = f := by simpa [Prod.ext_iff] using heq
    have hk := (List.mem_filter.mp hg).2
    simp [keepNonRec, hbin] at hk

/-- Witness for C8: the unreadable fixture is classified binary and is
not selected from a directory that contains it. -/
theorem C8_unreadable_classified_binary_witness :
    is_binary_file fileUnreadable = true ∧
      (["locked.dat"], fileUnreadable) ∉ files_to_process lockedTree false none [] :=
  ⟨(C8_unreadable_classified_binary fileUnreadable rfl rfl).1,
    (C8_unreadable_classified_binary fileUnreadable rfl rfl).2 lockedTree false
      none [] ["locked.dat"]⟩

/-- Counterexample to C6: the extension test is not insensitive to the
case of a filter entry — `.py` admits `x.py` but the same filter entry
written `.PY` rejects it, because only the filename is lowercased. -/
theorem C6_counterexample :
    extPass [".py"] "x.py" = true ∧ extPass [".PY"] "x.py" = false :=
  ⟨by decide, by decide⟩

/-- C6 (amended): the extension test lowercases only the filename, so
it is insensitive to filename case (a filter entry `.py` admits
`X.PY`) but sensitive to filter-entry case (an entry `.PY` rejects
`x.py`); an empty or absent filter admits every filename. -/
theorem C6_filename_case_only :
    (∀ (exts : List String) (n1 n2 : String), pyLower n1 = pyLower n2 →
        extPass exts n1 = extPass exts n2) ∧
    extPass [".py"] "X.PY" = true ∧
    extPass [".PY"] "x.py" = false ∧
    (∀ n : String, extPass [] n = true) := by
  refine ⟨?_, by decide, by decide, ?_⟩
  · intro exts n1 n2 h
    simp [extPass, h]
  · intro n
    simp [extPass]

/-- Witness for C6 (amended): two spellings of the same lowercased
name pass or fail the `.py` filter identically. -/
theorem C6_filename_case_only_witness :
    pyLower "A.Py" = pyLower "a.pY" ∧
      extPass [".py"] "A.Py" = extPass [".py"] "a.pY" :=
  ⟨by decide, C6_filename_case_only.1 [".py"] "A.Py" "a.pY" (by decide)⟩

/-- Counterexample to C2: in the spec's concrete scenario the
non-recursive selection yields two candidates — `.gitignore` survives
every test alongside `a.txt` — and the output does contain the text
`b.png`, as the concatenated content of `.gitignore`. -/
theorem C2_counterexample :
    (files_to_process scenarioTree false scenarioSpec []).map Prod.fst =
        [["a.txt"], [".gitignore"]] ∧
      pyIn "b.png" (consolidate_files scenarioTree false scenarioSpec []) = true :=
  ⟨by decide, by decide⟩

/-- C2 (amended): the scenario yields exactly the two candidates
`a.txt` and `.gitignore` (a hidden regular file is not excluded, its
media type is unknown and its bytes hold no null byte); the output
contains `a.txt`'s header, `hello` and footer; no entry for `b.png`
is written, but the string `b.png` occurs in the output as the content
of the `.gitignore` entry. -/
theorem C2_amended_scenario :
    files_to_process scenarioTree false scenarioSpec [] =
        [(["a.txt"], fileHello), ([".gitignore"], fileGitignore)] ∧
      consolidate_files scenarioTree false scenarioSpec [] =
        "\n\n# ----- Start of a.txt -----\n\nhello\n\n# ----- End of a.txt -----\n" ++
          "\n\n# ----- Start of .gitignore -----\n\nb.png\n\n# ----- End of .gitignore -----\n" ∧
      pyIn "# ----- Start of a.txt -----"
          (consolidate_files scenarioTree false scenarioSpec []) = true ∧
      pyIn "hello" (consolidate_files scenarioTree false scenarioSpec []) = true ∧
      pyIn "# ----- End of a.txt -----"
          (consolidate_files scenarioTree false scenarioSpec []) = true ∧
      pyIn "Start of b.png"
          (consolidate_files scenarioTree false scenarioSpec []) = false ∧
      pyIn "b.png" (consolidate_files scenarioTree false scenarioSpec []) = true :=
  ⟨by decide, by decide, by decide, by decide, by decide, by decide, by decide⟩

/-- Counterexample to C1: a candidate whose text read fails with a
decode error does leave its header in the output stream — the header
is written before the read is attempted — so it is false that nothing
for that file appears. -/
theorem C1_counterexample :
    fileBad.readText = TextRead.decodeError ∧
      writeAll [(["bad.txt"], fileBad)] "" =
        "\n\n# ----- Start of bad.txt -----\n\n" :=
  ⟨rfl, by decide⟩

/-- C1 (amended): on a decode failure during concatenation the file's
content and footer are not written, but its header — written before
the read — is; the stream written so far is only ever appended to
(already-written entries are not corrupted), and the remaining
candidates are processed normally. -/
theorem C1_decode_failure_behavior (outfile : String)
    (cs ds : List (List String × FSFile)) (p : List String) (f : FSFile)
    (h : f.readText = TextRead.decodeError) :
    writeAll (cs ++ (p, f) :: ds) outfile =
        (writeAll cs outfile ++ startMarker (relString p)) ++ entriesText ds ∧
      ∃ t : String, writeAll cs outfile = outfile ++ t := by
  constructor
  · rw [writeAll_eq, entriesText_append, writeAll_eq]
    have hpiece : entryPiece f (relString p) = startMarker (relString p) := by
      simp [entryPiece, h]
    rw [entriesText, hpiece]
    simp [String.append_assoc]
  · exact ⟨entriesText cs, writeAll_eq cs outfile⟩

/-- Witness for C1 (amended): with one good candidate before it, the
decode-failing fixture contributes exactly its header and the prior
entry is preserved. -/
theorem C1_decode_failure_behavior_witness :
    fileBad.readText = TextRead.decodeError ∧
      (writeAll ([(["a.txt"], fileHello)] ++ (["bad.txt"], fileBad) :: []) "" =
        (writeAll [(["a.txt"], fileHello)] "" ++ startMarker (relString ["bad.txt"])) ++
          entriesText [] ∧
      ∃ t : String, writeAll [(["a.txt"], fileHello)] "" = "" ++ t) :=
  ⟨rfl,
    C1_decode_failure_behavior "" [(["a.txt"], fileHello)] [] ["bad.txt"] fileBad rfl⟩

/-- Counterexample to C9: `consolidate_files` surfaces no
written-file count — the Python function returns `None`; the only
count it produces is the candidate total logged before writing, and on
a directory where one of two selected candidates fails to decode that
logged count is 2 while only 1 file is actually written in full. -/
theorem C9_counterexample :
    consolidate_logged_count decodeTree false none [] = 2 ∧
      ((files_to_process decodeTree false none []).filter
          (fun pf => readOk pf.2)).length = 1 ∧
      consolidate_files decodeTree false none [] =
        "\n\n# ----- Start of a.txt -----\n\nhello\n\n# ----- End of a.txt -----\n" ++
          "\n\n# ----- Start of bad.txt -----\n\n" :=
  ⟨by decide, by decide, by decide⟩

/-- C9 (amended): the count `consolidate_files` logs before the
writing loop is the number of selected candidates, which is the number
of candidates whose read succeeds (the fully written entries) plus the
number whose read fails (the skipped ones); it is not the count of
files actually written when any candidate fails. -/
theorem C9_logged_count_split (t : FSTree) (incl : Bool)
    (spec : Option (List GitPattern)) (exts : List String) :
    consolidate_logged_count t incl spec exts =
      ((files_to_process t incl spec exts).filter (fun pf => readOk pf.2)).length +
        ((files_to_process t incl spec exts).filter
            (fun pf => !readOk pf.2)).length :=
  (length_filter_split (files_to_process t incl spec exts)
      (fun pf => readOk pf.2)).symm

/-- C3: in recursive selection, a file whose relative path has an
ancestor directory component beginning with `.` is never present in
the selection output, whatever the ignore ruleset and extension
filter. -/
theorem C3_hidden_dir_law (t : FSTree) (spec : Option (List GitPattern))
    (exts : List String) (p : List String) (f : FSFile)
    (h : ∃ d ∈ p.dropLast, pyStartsWith d "." = true) :
    (p, f) ∉ files_to_process t true spec exts := by
  intro hmem
  have hm : (p, f) ∈ walkFiles [] t :=
    ((mem_selectRec t spec exts (p, f)).mp hmem).1
  obtain ⟨q, hq, -, hall⟩ := walkFiles_shape [] t p f hm
  rcases h with ⟨d, hd, hdot⟩
  have hfalse : pyStartsWith d "." = false := hall d (by simpa [hq] using hd)
  rw [hfalse] at hdot
  exact Bool.false_ne_true hdot

/-- Witness for C3: the file under the hidden `.git` directory is not
selected. -/
theorem C3_hidden_dir_law_witness :
    (∃ d ∈ ([".git", "secret.txt"] : List String).dropLast,
        pyStartsWith d "." = true) ∧
      ([".git", "secret.txt"], fileSecret) ∉ files_to_process hiddenTree true none [] :=
  ⟨by decide,
    C3_hidden_dir_law hiddenTree none [] [".git", "secret.txt"] fileSecret
      (by decide)⟩

/-- C10: a regular file whose own name begins with `.` is not excluded
by the hidden-name rule in either traversal branch — it is selected
exactly when it passes the ignore-pattern, extension and binary
tests. -/
theorem C10_hidden_files_admitted (t : FSTree) (spec : Option (List GitPattern))
    (exts : List String) (p : List String) (f : FSFile)
    (hreg : f.isRegular = true) (_hname : pyStartsWith f.name "." = true) :
    ((p, f) ∈ walkFiles [] t →
      ((p, f) ∈ files_to_process t true spec exts ↔
        (should_ignore spec (relString p) = false ∧ extPass exts f.name = true ∧
          is_binary_file f = false))) ∧
    (f ∈ rootFiles t →
      (([f.name], f) ∈ files_to_process t false spec exts ↔
        (should_ignore spec f.name = false ∧ extPass exts f.name = true ∧
          is_binary_file f = false))) := by
  constructor
  · intro hw
    rw [show files_to_process t true spec exts = selectRec t spec exts from rfl,
      mem_selectRec]
    simp [keepRec, hw, hreg, and_assoc]
  · intro hr
    rw [show files_to_process t false spec exts = selectNonRec t spec exts from rfl,
      mem_selectNonRec]
    simp [keepNonRec, hr, hreg, and_assoc]

/-- Witness for C10: the hidden regular file `.env`, which passes all
three tests, is selected by the non-recursive branch. -/
theorem C10_hidden_files_admitted_witness :
    fileDotEnv.isRegular = true ∧ pyStartsWith fileDotEnv.name "." = true ∧
      ([".env"], fileDotEnv) ∈ files_to_process dotfileTree false none [] :=
  ⟨rfl, by decide,
    ((C10_hidden_files_admitted dotfileTree none [] [".env"] fileDotEnv rfl
          (by decide)).2 (by decide)).mpr ⟨by decide, by decide, by decide⟩⟩

end Consolidate
